import Mathlib

/-
Verification of the release-sync engine of `@objekt/capacitor-app-updater`
(src/AppUpdater.ts).  The TypeScript source is embedded shallowly: each
source function becomes a Lean definition over an explicit filesystem state
and an environment of collaborator behaviours (network results, injected
collaborator failures).  Promises are sequentialised; `await Promise.all`
over the per-file tasks is modelled as running the tasks in dispatch order
with fail-fast join (all writes target the staging area, so the final state
on the success path and the untouched-area guarantees on failure paths
agree with any interleaving).  All `new Date()` calls inside one attempt are
modelled by the single instant `env.now` (the code only compares dates and
stores them).  File contents are modelled as an abstract datatype: no claim
observes the byte-level content transformations.
-/

namespace AppUpdater

/-- A single file entry of a checksum manifest (source: type `ChecksumFile`). -/
structure ChecksumFile where
  path : String
  hash : String
deriving DecidableEq, Repr

/-- A checksum manifest (source: type `Checksum`); `timestamp` is a date in ms. -/
structure Checksum where
  id : String
  timestamp : Nat
  files : List ChecksumFile
deriving DecidableEq, Repr

/-- A release (source: type `Release`). -/
structure Release where
  id : String
  updated : Nat
  checksum : Checksum
deriving DecidableEq, Repr

/-- Abstract content of a file stored in the app data directory.
`verFile` is the JSON `{id, updated}` written to `version.json`;
`checksumFile` is a serialised manifest; `remote`/`bundled` tag bytes
obtained from `Http.downloadFile` / the bundle fetch workaround. -/
inductive FileData where
  | verFile (id : String) (updated : Nat)
  | checksumFile (c : Checksum)
  | remote (url : String)
  | bundled (url : String)
deriving DecidableEq, Repr

/-- The app data directory (`Directory.Data`): a flat map from path strings to
file contents plus a set of directory names.  Paths are the literal strings the
code builds; no normalisation is performed (mirroring a store keyed by path). -/
structure FS where
  files : List (String × FileData)
  dirs : List String
deriving DecidableEq, Repr

/-- Boolean string-prefix test, via the underlying character lists. -/
def isPre (a b : String) : Bool := a.data.isPrefixOf b.data

/-- `q` is the path `p` itself or lies strictly under directory `p`. -/
def underPath (p q : String) : Bool := q == p || isPre (p ++ "/") q

/-- Lookup of a file's content. -/
def lookupFile (fs : FS) (p : String) : Option FileData :=
  (fs.files.find? (fun e => e.1 == p)).map (fun e => e.2)

/-- Write (create or overwrite) a file. -/
def putFile (fs : FS) (p : String) (d : FileData) : FS :=
  { fs with files := (p, d) :: fs.files.filter (fun e => !(e.1 == p)) }

/-- Something exists at or under path `p`. -/
def fsExists (fs : FS) (p : String) : Bool :=
  fs.dirs.any (fun d => underPath p d) || fs.files.any (fun e => underPath p e.1)

/-- Recursive directory removal: drops every entry at or under `p`; fails
(`none`) when nothing exists there (Capacitor `Filesystem.rmdir` rejects on a
missing directory). -/
def rmdirCore (fs : FS) (p : String) : Option FS :=
  if fsExists fs p then
    some { files := fs.files.filter (fun e => !(underPath p e.1)),
           dirs := fs.dirs.filter (fun d => !(underPath p d)) }
  else none

/-- Atomic rename of a directory tree: fails when the source is absent or the
destination already exists, else re-keys every entry under `src` to `dst`. -/
def renameCore (fs : FS) (src dst : String) : Option FS :=
  if fsExists fs src then
    if fsExists fs dst then none
    else some
      { files := fs.files.map (fun e =>
          if underPath src e.1 then (dst ++ String.mk (e.1.data.drop src.data.length), e.2) else e),
        dirs := fs.dirs.map (fun d =>
          if underPath src d then dst ++ String.mk (d.data.drop src.data.length) else d) }
  else none

/-- First occurrence of each element, in order: the semantics of iterating a
JS `new Set(...)` built from a list. -/
def setDedupAux (seen : List String) : List String → List String
  | [] => []
  | x :: xs => if seen.contains x then setDedupAux seen xs else x :: setDedupAux (x :: seen) xs

/-- JS `[...new Set(l)]`. -/
def setDedup (l : List String) : List String := setDedupAux [] l

/-- Immediate child name of directory `p` contributed by the path `q`, if any. -/
def childOf (p q : String) : Option String :=
  if isPre (p ++ "/") q then
    some (String.mk ((q.data.drop (p.data.length + 1)).takeWhile (fun c => !(c == '/'))))
  else none

/-- Immediate children of directory `p` (Capacitor `Filesystem.readdir`). -/
def children (fs : FS) (p : String) : List String :=
  setDedup ((fs.files.map Prod.fst ++ fs.dirs).filterMap (childOf p))

/-- JS `p.substring(0, p.lastIndexOf('/'))`: the characters before the last
slash; when there is no slash, `lastIndexOf` is `-1` and `substring` clamps it
to `0`, yielding the empty string. -/
def jsSubstringToLastSlash (p : String) : String :=
  match (p.data.reverse.findIdx? (fun c => c == '/')) with
  | none => ""
  | some i => String.mk (p.data.take (p.data.length - 1 - i))

/-- JS property access `s.name` on a string value: strings have no `name`
property, so the result is `undefined` (`none`).  Relevant because with the
dependency `@capacitor/filesystem ^1.1.0` pinned in package.json,
`Filesystem.readdir` resolves to `{ files: string[] }`, so the entries
iterated by `deleteOldReleases` are plain strings. -/
def jsStringNameProp (_ : String) : Option String := none

-- --------------------------------------------------------------
-- Collaborator behaviour: one record of oracle results and fault
-- injections for a single sync attempt.
-- --------------------------------------------------------------

/-- Behaviour of the collaborators during one attempt.  `Option` results model
fetches that fail or return unparsable data; the `...Fail` fields inject
failures into the corresponding collaborator primitive (keyed by target path
where the code issues many calls). -/
structure Env where
  isNative : Bool
  now : Nat
  serverChecksum : Option Checksum
  bundleChecksum : Option Checksum
  bundleFileFail : String → Bool
  copyFail : String → Bool
  downloadFail : String → Bool
  writeFail : String → Bool
  renameFail : Bool
  rmdirFail : String → Bool
  readdirFail : Bool
  getUriFail : Bool
  setBasePathFail : Bool
  persistFail : Bool

/-- Observable operations recorded while the engine runs. -/
inductive Ev where
  | fetchManifest (url : String)
  | copyOp (fromPath toPath : String)
  | downloadOp (url path : String)
  | bundleFetch (url path : String)
  | renameOp (fromPath toPath : String)
  | rmdirOp (path : String)
deriving DecidableEq, Repr

/-- Run-time state of one attempt: the data directory plus the event trace. -/
structure St where
  fs : FS
  trace : List Ev
deriving DecidableEq, Repr

/-- The effect monad: state passing with string-labelled exceptions; the state
at the moment an exception is raised is preserved (JS exceptions do not roll
back completed filesystem effects). -/
def M (α : Type) := St → Except String α × St

/-- Pure computation. -/
def mPure {α : Type} (a : α) : M α := fun s => (Except.ok a, s)

/-- Sequencing: a raised exception short-circuits the continuation. -/
def mBind {α β : Type} (m : M α) (f : α → M β) : M β := fun s =>
  match m s with
  | (Except.ok a, s') => f a s'
  | (Except.error e, s') => (Except.error e, s')

instance : Monad M where
  pure := mPure
  bind := mBind

/-- JS `throw`. -/
def throwErr {α : Type} (e : String) : M α := fun s => (Except.error e, s)

/-- JS `try { m } catch (e) { h e }`. -/
def tryCatchM {α : Type} (m : M α) (h : String → M α) : M α := fun s =>
  match m s with
  | (Except.ok a, s') => (Except.ok a, s')
  | (Except.error e, s') => h e s'

/-- Read the filesystem state. -/
def getFS : M FS := fun s => (Except.ok s.fs, s)

/-- Replace the filesystem state. -/
def setFS (fs : FS) : M Unit := fun s => (Except.ok (), { s with fs := fs })

/-- Record an observable event. -/
def emit (ev : Ev) : M Unit := fun s => (Except.ok (), { s with trace := s.trace ++ [ev] })

/-- Sequential iteration (`for ... of` loops, and the sequentialised
`Promise.all` join over the dispatched per-file tasks). -/
def forEachM {α : Type} : List α → (α → M Unit) → M Unit
  | [], _ => mPure ()
  | x :: xs, f => mBind (f x) (fun _ => forEachM xs f)

-- --------------------------------------------------------------
-- Collaborator primitives (Filesystem / Http / WebView plugins)
-- --------------------------------------------------------------

/-- `Filesystem.mkdir` (recursive): rejects when the directory already exists. -/
def fsMkdir (p : String) : M Unit :=
  mBind getFS (fun fs =>
    if fs.dirs.contains p then throwErr "Directory exists"
    else setFS { fs with dirs := p :: fs.dirs })

/-- `Filesystem.rmdir` (recursive): rejects on injected fault or missing dir. -/
def fsRmdir (env : Env) (p : String) : M Unit :=
  if env.rmdirFail p then throwErr "rmdir failed"
  else
    mBind getFS (fun fs =>
      match rmdirCore fs p with
      | none => throwErr "Directory does not exist"
      | some fs' => setFS fs')

/-- `Filesystem.writeFile` (recursive, UTF8): rejects on injected fault. -/
def fsWriteFile (env : Env) (p : String) (d : FileData) : M Unit :=
  if env.writeFail p then throwErr "write failed"
  else mBind getFS (fun fs => setFS (putFile fs p d))

/-- `Filesystem.readFile`: rejects when the file is absent. -/
def fsReadFile (p : String) : M FileData :=
  mBind getFS (fun fs =>
    match lookupFile fs p with
    | none => throwErr "File does not exist"
    | some d => mPure d)

/-- `Filesystem.appendFile` during the bundle copy workaround; the staged
target is always fresh in the runs considered, so appending creates the file
(byte-level append to an existing file is not distinguished — no claim
observes it). -/
def fsAppendFile (p : String) (d : FileData) : M Unit :=
  mBind getFS (fun fs => setFS (putFile fs p d))

/-- `Filesystem.rename`: atomic promotion; records the commit event exactly
when the rename succeeds. -/
def fsRename (env : Env) (src dst : String) : M Unit :=
  if env.renameFail then throwErr "rename failed"
  else
    mBind getFS (fun fs =>
      match renameCore fs src dst with
      | none => throwErr "rename rejected"
      | some fs' => mBind (setFS fs') (fun _ => emit (Ev.renameOp src dst)))

/-- `Filesystem.readdir`: rejects on injected fault or missing directory. -/
def fsReaddir (env : Env) (p : String) : M (List String) :=
  if env.readdirFail then throwErr "readdir failed"
  else
    mBind getFS (fun fs =>
      if fsExists fs p then mPure (children fs p) else throwErr "Directory does not exist")

/-- `Filesystem.copy`: rejects on injected fault or missing source file. -/
def fsCopy (env : Env) (src dst : String) : M Unit :=
  if env.copyFail dst then throwErr "copy failed"
  else
    mBind getFS (fun fs =>
      match lookupFile fs src with
      | none => throwErr "copy source does not exist"
      | some d => setFS (putFile fs dst d))

/-- `Filesystem.getUri` for a path in the data directory. -/
def fsGetUri (env : Env) (p : String) : M String :=
  if env.getUriFail then throwErr "getUri failed" else mPure ("file:///DATA/" ++ p)

/-- `WebView.setServerBasePath`. -/
def webViewSetServerBasePath (env : Env) (_path : String) : M Unit :=
  if env.setBasePathFail then throwErr "setServerBasePath failed" else mPure ()

/-- `WebView.persistServerBasePath`. -/
def webViewPersistServerBasePath (env : Env) : M Unit :=
  if env.persistFail then throwErr "persistServerBasePath failed" else mPure ()

-- --------------------------------------------------------------
-- Step and helper functions (direct translations of AppUpdater.ts)
-- --------------------------------------------------------------

/-- Source `createDir` (lines 599-618): mkdir that ignores an empty path and
swallows every error ("already exists"). -/
def createDir (path : String) : M Unit :=
  if path == "" then mPure ()
  else tryCatchM (fsMkdir path) (fun _ => mPure ())

/-- Source `removeDir` (lines 626-645): rmdir that ignores an empty path and
swallows every error ("already removed"). -/
def removeDir (env : Env) (path : String) : M Unit :=
  if path == "" then mPure ()
  else tryCatchM (fsRmdir env path) (fun _ => mPure ())

/-- Source `getServerChecksum` (lines 424-444): `Http.request` for
`checksum.json`; its try/catch collapses any network or parse failure to
`null`, here `none` supplied by `env.serverChecksum`. -/
def getServerChecksum (env : Env) (url : String) : M (Option Checksum) :=
  mBind (emit (Ev.fetchManifest url)) (fun _ => mPure env.serverChecksum)

/-- Source `copyFromPreviousRelease` (lines 453-462): `Filesystem.copy`. -/
def copyFromPreviousRelease (env : Env) (fromPath toPath : String) : M Unit :=
  mBind (emit (Ev.copyOp fromPath toPath)) (fun _ => fsCopy env fromPath toPath)

/-- Source `downloadFileFromWebServer` (lines 473-485): `Http.downloadFile`
streaming the remote file into the staged path, with its bounded timeouts
modelled by the injected failure flag. -/
def downloadFileFromWebServer (env : Env) (url : String) (path : String) : M Unit :=
  mBind (emit (Ev.downloadOp url path)) (fun _ =>
    if env.downloadFail path then throwErr "download failed"
    else mBind getFS (fun fs => setFS (putFile fs path (FileData.remote url))))

/-- Source `downloadFileFromAppBundle` (lines 496-587): fetches one bundled
file and writes it via `Filesystem.appendFile`; the whole body is wrapped in
try/catch, so the function resolves to `false` on failure instead of
rejecting.  The HTML head-stripping transformation acts on byte content,
which is abstract here. -/
def downloadFileFromAppBundle (env : Env) (url : String) (path : String) : M Bool :=
  tryCatchM
    (mBind (emit (Ev.bundleFetch url path)) (fun _ =>
      if env.bundleFileFail path then throwErr "could not copy from app bundle"
      else mBind (fsAppendFile path (FileData.bundled url)) (fun _ => mPure true)))
    (fun _ => mPure false)

/-- Source `setCurrentRelease` (lines 335-350): writes `version.json`. -/
def setCurrentRelease (env : Env) (releaseName : String) (timestamp : Nat) : M Unit :=
  fsWriteFile env "version.json" (FileData.verFile releaseName timestamp)

/-- Source `getCurrentRelease` (lines 213-252): reads `version.json`, then the
manifest stored beside the release's content; any failure (absent file,
unparsable data — a non-matching `FileData` constructor) is caught and yields
`none`, triggering bootstrap. -/
def getCurrentRelease : M (Option Release) :=
  tryCatchM
    (mBind (fsReadFile "version.json") (fun d =>
      match d with
      | FileData.verFile id updated =>
          mBind (fsReadFile ("releases/" ++ id ++ "/checksum.json")) (fun c =>
            match c with
            | FileData.checksumFile cs =>
                mPure (some { id := id, updated := updated, checksum := cs })
            | _ => throwErr "unparsable checksum.json")
      | _ => throwErr "unparsable version.json"))
    (fun _ => mPure none)

/-- Source `deleteOldReleases` (lines 357-382).  The loop guard is the JS
expression `oldReleaseName.name !== activeReleaseName`; the entries produced
by `Filesystem.readdir` of the pinned `@capacitor/filesystem ^1.1.0` are
strings, so `.name` is `undefined` (see `jsStringNameProp`) and the guard
holds for every entry.  `rmdir` attempts are recorded; failures are NOT
caught here. -/
def deleteOldReleases (env : Env) (activeReleaseName : String) : M Unit :=
  mBind (fsReaddir env "releases") (fun installedReleases =>
    if installedReleases.length > 0 then
      forEachM installedReleases (fun oldReleaseName =>
        if jsStringNameProp oldReleaseName ≠ some activeReleaseName then
          mBind (emit (Ev.rmdirOp ("releases/" ++ oldReleaseName)))
            (fun _ => fsRmdir env ("releases/" ++ oldReleaseName))
        else mPure ())
    else mPure ())

/-- Source `activateRelease` (lines 389-411): resolves the release URI,
persists the new pointer, then points the webview at the release (the
android/ios branches perform the identical call) and persists the base path. -/
def activateRelease (env : Env) (releaseName : String) : M Unit :=
  mBind (fsGetUri env ("releases/" ++ releaseName)) (fun releasePath =>
    mBind (setCurrentRelease env releaseName env.now) (fun _ =>
      mBind (webViewSetServerBasePath env releasePath) (fun _ =>
        webViewPersistServerBasePath env)))

/-- Source `buildReleaseFromBundle` (lines 261-327): bootstrap build of the
initial release from the embedded bundle; on any failure the partial output
is cleaned up and the error is rethrown. -/
def buildReleaseFromBundle (env : Env) : M Release :=
  tryCatchM
    (mBind
      (match env.bundleChecksum with
       | none => throwErr "could not fetch bundled checksum.json"
       | some c => mPure c) (fun checksum =>
      mBind (createDir "releases") (fun _ =>
        mBind (forEachM
            (setDedup (checksum.files.map (fun file => jsSubstringToLastSlash file.path)))
            (fun path => createDir ("releases/" ++ checksum.id ++ "/" ++ path))) (fun _ =>
          mBind (forEachM checksum.files (fun file =>
              mBind (downloadFileFromAppBundle env
                ("http://localhost/" ++ file.path)
                ("releases/" ++ checksum.id ++ "/" ++ file.path)) (fun _ => mPure ())))
            (fun _ =>
            mBind (fsWriteFile env ("releases/" ++ checksum.id ++ "/checksum.json")
                (FileData.checksumFile checksum)) (fun _ =>
              mBind (setCurrentRelease env checksum.id checksum.timestamp) (fun _ =>
                mPure { id := checksum.id, updated := checksum.timestamp,
                        checksum := checksum })))))))
    (fun _ =>
      mBind (removeDir env "releases") (fun _ =>
        throwErr "AppUpdater: Could not build release from bundled."))

/-- The per-file reconciliation decision, extracted verbatim from the loop
body of `sync` (lines 141-161): reuse by local copy exactly when the active
manifest has an entry with identical path and identical hash (the source's
`.find(item => item.path === file.path && item.hash === file.hash)`),
otherwise download from the web server. -/
inductive FileOp where
  | copy (fromPath toPath : String)
  | download (url path : String)
deriving DecidableEq, Repr

/-- Decision for one file of the new manifest (loop body, lines 141-161). -/
def reconcileTask (active : Checksum) (webServerURL : String) (file : ChecksumFile) : FileOp :=
  if active.files.any (fun item => item.path == file.path && item.hash == file.hash) then
    FileOp.copy ("releases/" ++ active.id ++ "/" ++ file.path)
      ("releases/next/" ++ file.path)
  else
    FileOp.download (webServerURL ++ "/" ++ file.path) ("releases/next/" ++ file.path)

/-- Dispatch one decided task. -/
def execTask (env : Env) : FileOp → M Unit
  | FileOp.copy a b => copyFromPreviousRelease env a b
  | FileOp.download u p => downloadFileFromWebServer env u p

/-- Lines 174-188 of `sync`: the atomic commit rename of the staged release,
then GC of old releases, then activation; reports `true` ("app was updated"). -/
def commitTail (env : Env) (checksum : Checksum) : M Bool :=
  mBind (fsRename env "releases/next" ("releases/" ++ checksum.id)) (fun _ =>
    mBind (deleteOldReleases env checksum.id) (fun _ =>
      mBind (activateRelease env checksum.id) (fun _ =>
        mPure true)))

/-- Lines 127-188 of `sync`: everything after the same-version check —
staging-area preparation, directory scaffolding, the reconciled per-file
batch, the manifest write, then commit/GC/activation (`commitTail`). -/
def updateFromManifest (env : Env) (webServerURL : String) (checksum : Checksum)
    (activeRelease : Release) : M Bool :=
  mBind (createDir "releases") (fun _ =>
    mBind (removeDir env "releases/next") (fun _ =>
      mBind (forEachM
          (setDedup (checksum.files.map (fun file => jsSubstringToLastSlash file.path)))
          (fun path => createDir ("releases/next/" ++ path))) (fun _ =>
        mBind (forEachM checksum.files (fun file =>
            execTask env (reconcileTask activeRelease.checksum webServerURL file))) (fun _ =>
          mBind (fsWriteFile env "releases/next/checksum.json"
              (FileData.checksumFile checksum)) (fun _ =>
            commitTail env checksum)))))

/-- The body of the `try` block of `sync` (lines 93-188): load the active
release (bootstrapping when absent), gate on the check interval, fetch the
remote manifest, stop when it is already installed (refreshing the check
timestamp), else stage/commit/activate the new release. -/
def syncAttempt (env : Env) (webServerURL : String) (checkDelay : Nat) : M Bool :=
  mBind getCurrentRelease (fun cur =>
    mBind
      (match cur with
       | none => buildReleaseFromBundle env
       | some r => mPure r) (fun activeRelease =>
      mBind
        (if env.now < activeRelease.updated + checkDelay then
          throwErr "update check not due yet"
        else mPure ()) (fun _ =>
        mBind (getServerChecksum env (webServerURL ++ "/checksum.json")) (fun checksumOpt =>
          mBind
            (match checksumOpt with
             | none => throwErr "Unable to get checksum from server"
             | some c => mPure c) (fun checksum =>
            mBind
              (if activeRelease.checksum.id == checksum.id then
                mBind (setCurrentRelease env checksum.id env.now) (fun _ =>
                  throwErr "Latest release already installed")
              else mPure ()) (fun _ =>
              updateFromManifest env webServerURL checksum activeRelease))))))

/-- Source `AppUpdater.sync` (lines 81-201): skips non-native platforms, and
wraps the whole attempt in try/catch so that every internal failure resolves
to `false` ("staying on current version"). -/
def sync (env : Env) (webServerURL : String) (checkDelay : Nat) : M Bool :=
  if env.isNative then
    tryCatchM (syncAttempt env webServerURL checkDelay) (fun _ => mPure false)
  else mPure false

/-- A path at or under the staging directory `releases/next`. -/
def stgPath (p : String) : Bool := underPath "releases/next" p

-- --------------------------------------------------------------
-- Run lemmas for the effect monad
-- --------------------------------------------------------------

theorem mBind_ok {α β : Type} {m : M α} {f : α → M β} {s s' : St} {a : α}
    (h : m s = (Except.ok a, s')) : mBind m f s = f a s' := by
  unfold mBind; rw [h]

theorem mBind_err {α β : Type} {m : M α} {f : α → M β} {s s' : St} {e : String}
    (h : m s = (Except.error e, s')) : mBind m f s = (Except.error e, s') := by
  unfold mBind; rw [h]

theorem mBind_mPure {α β : Type} (a : α) (f : α → M β) (s : St) :
    mBind (mPure a) f s = f a s := rfl

theorem mBind_assoc {α β γ : Type} (m : M α) (f : α → M β) (g : β → M γ) (s : St) :
    mBind (mBind m f) g s = mBind m (fun a => mBind (f a) g) s := by
  unfold mBind
  rcases hms : m s with ⟨r, s1⟩
  cases r <;> rfl

theorem tryCatchM_ok {α : Type} {m : M α} {h : String → M α} {s s' : St} {a : α}
    (hm : m s = (Except.ok a, s')) : tryCatchM m h s = (Except.ok a, s') := by
  unfold tryCatchM; rw [hm]

theorem tryCatchM_err {α : Type} {m : M α} {h : String → M α} {s s' : St} {e : String}
    (hm : m s = (Except.error e, s')) : tryCatchM m h s = h e s' := by
  unfold tryCatchM; rw [hm]

theorem throwErr_run {α : Type} (e : String) (s : St) :
    (throwErr e : M α) s = (Except.error e, s) := rfl

-- --------------------------------------------------------------
-- Path and lookup lemmas
-- --------------------------------------------------------------

theorem isPre_self_append (a b : String) : isPre a (a ++ b) = true := by
  unfold isPre
  rw [String.data_append, List.isPrefixOf_iff_prefix]
  exact List.prefix_append _ _

theorem stgPath_next_append (x : String) : stgPath ("releases/next/" ++ x) = true := by
  unfold stgPath underPath
  have h : isPre ("releases/next" ++ "/") ("releases/next/" ++ x) = true :=
    isPre_self_append "releases/next/" x
  rw [h, Bool.or_true]

theorem find?_filter_keep {α : Type} (l : List α) (pr keep : α → Bool)
    (h : ∀ e, pr e = true → keep e = true) :
    (l.filter keep).find? pr = l.find? pr := by
  induction l with
  | nil => rfl
  | cons x xs ih =>
    by_cases hx : pr x = true
    · rw [List.filter_cons, h x hx]
      simp only [if_true, List.find?_cons, hx, ih]
    · have hx' : pr x = false := by revert hx; cases pr x <;> simp
      by_cases hk : keep x = true
      · rw [List.filter_cons, hk]
        simp only [if_true, List.find?_cons, hx', ih]
      · have hk' : keep x = false := by revert hk; cases keep x <;> simp
        rw [List.filter_cons, hk']
        simp only [Bool.false_eq_true, if_false, List.find?_cons, hx', ih]

theorem lookupFile_putFile_self (fs : FS) (p : String) (d : FileData) :
    lookupFile (putFile fs p d) p = some d := by
  unfold lookupFile putFile
  simp [List.find?_cons]

theorem lookupFile_putFile_ne (fs : FS) (p : String) (d : FileData) (q : String)
    (h : ¬(q = p)) : lookupFile (putFile fs p d) q = lookupFile fs q := by
  unfold lookupFile putFile
  have hpq : ((p, d).1 == q) = false := by
    simp only [beq_eq_false_iff_ne, ne_eq]
    exact fun hh => h hh.symm
  simp only [List.find?_cons, hpq]
  rw [find?_filter_keep]
  intro e he
  have : e.1 = q := by simpa [beq_iff_eq] using he
  simp [this, h]

theorem lookupFile_filter_keep (fs : FS) (keep : String × FileData → Bool) (q : String)
    (h : ∀ e : String × FileData, e.1 = q → keep e = true) :
    lookupFile { fs with files := fs.files.filter keep } q = lookupFile fs q := by
  unfold lookupFile
  rw [find?_filter_keep]
  intro e he
  exact h e (by simpa [beq_iff_eq] using he)

-- --------------------------------------------------------------
-- Structural computation properties: trace monotonicity (TP), no
-- rename emission (NRE), preservation of files outside the staging
-- area (PO).
-- --------------------------------------------------------------

/-- Events already in the trace survive running `m` (traces only grow). -/
def TP {α : Type} (m : M α) : Prop := ∀ s ev, ev ∈ s.trace → ev ∈ (m s).2.trace

/-- Running `m` adds no `renameOp` event to the trace. -/
def NRE {α : Type} (m : M α) : Prop :=
  ∀ s a b, Ev.renameOp a b ∈ (m s).2.trace → Ev.renameOp a b ∈ s.trace

/-- Running `m` leaves every file outside the staging area untouched
(whether it succeeds or raises). -/
def PO {α : Type} (m : M α) : Prop :=
  ∀ s p, stgPath p = false → lookupFile (m s).2.fs p = lookupFile s.fs p

theorem TP_mPure {α : Type} (a : α) : TP (mPure a) := fun _ _ h => h

theorem TP_throwErr {α : Type} (e : String) : TP (throwErr e : M α) := fun _ _ h => h

theorem TP_emit (e : Ev) : TP (emit e) := fun _ _ h => List.mem_append_left _ h

theorem TP_mBind {α β : Type} {m : M α} {f : α → M β} (hm : TP m) (hf : ∀ a, TP (f a)) :
    TP (mBind m f) := by
  intro s ev h
  unfold mBind
  rcases hms : m s with ⟨r, s1⟩
  have h1 : ev ∈ s1.trace := by
    have hh := hm s ev h
    rw [hms] at hh
    exact hh
  cases r with
  | ok a => exact hf a s1 ev h1
  | error e => exact h1

theorem TP_tryCatchM {α : Type} {m : M α} {h : String → M α} (hm : TP m)
    (hh : ∀ e, TP (h e)) : TP (tryCatchM m h) := by
  intro s ev hev
  unfold tryCatchM
  rcases hms : m s with ⟨r, s1⟩
  have h1 : ev ∈ s1.trace := by
    have t := hm s ev hev
    rw [hms] at t
    exact t
  cases r with
  | ok a => exact h1
  | error e => exact hh e s1 ev h1

theorem TP_ite {α : Type} {c : Prop} [Decidable c] {m1 m2 : M α} (h1 : TP m1) (h2 : TP m2) :
    TP (if c then m1 else m2) := by
  by_cases hc : c
  · rw [if_pos hc]; exact h1
  · rw [if_neg hc]; exact h2

theorem TP_forEachM {α : Type} (l : List α) (f : α → M Unit) (hf : ∀ a, TP (f a)) :
    TP (forEachM l f) := by
  induction l with
  | nil => exact TP_mPure ()
  | cons x xs ih => exact TP_mBind (hf x) (fun _ => ih)

theorem TP_getFS : TP getFS := fun _ _ h => h

theorem TP_setFS (fs : FS) : TP (setFS fs) := fun _ _ h => h

theorem TP_fsMkdir (p : String) : TP (fsMkdir p) := by
  unfold fsMkdir
  exact TP_mBind TP_getFS (fun fs => TP_ite (TP_throwErr _) (TP_setFS _))

theorem TP_fsRmdir (env : Env) (p : String) : TP (fsRmdir env p) := by
  unfold fsRmdir
  apply TP_ite (TP_throwErr _)
  apply TP_mBind TP_getFS
  intro fs
  cases rmdirCore fs p with
  | none => exact TP_throwErr _
  | some fs' => exact TP_setFS _

theorem TP_fsWriteFile (env : Env) (p : String) (d : FileData) : TP (fsWriteFile env p d) := by
  unfold fsWriteFile
  exact TP_ite (TP_throwErr _) (TP_mBind TP_getFS (fun fs => TP_setFS _))

theorem TP_fsReadFile (p : String) : TP (fsReadFile p) := by
  unfold fsReadFile
  apply TP_mBind TP_getFS
  intro fs
  cases lookupFile fs p with
  | none => exact TP_throwErr _
  | some d => exact TP_mPure _

theorem TP_fsAppendFile (p : String) (d : FileData) : TP (fsAppendFile p d) := by
  unfold fsAppendFile
  exact TP_mBind TP_getFS (fun fs => TP_setFS _)

theorem TP_fsRename (env : Env) (src dst : String) : TP (fsRename env src dst) := by
  unfold fsRename
  apply TP_ite (TP_throwErr _)
  apply TP_mBind TP_getFS
  intro fs
  cases renameCore fs src dst with
  | none => exact TP_throwErr _
  | some fs' => exact TP_mBind (TP_setFS _) (fun _ => TP_emit _)

theorem TP_fsReaddir (env : Env) (p : String) : TP (fsReaddir env p) := by
  unfold fsReaddir
  apply TP_ite (TP_throwErr _)
  apply TP_mBind TP_getFS
  intro fs
  exact TP_ite (TP_mPure _) (TP_throwErr _)

theorem TP_fsCopy (env : Env) (src dst : String) : TP (fsCopy env src dst) := by
  unfold fsCopy
  apply TP_ite (TP_throwErr _)
  apply TP_mBind TP_getFS
  intro fs
  cases lookupFile fs src with
  | none => exact TP_throwErr _
  | some d => exact TP_setFS _

theorem TP_fsGetUri (env : Env) (p : String) : TP (fsGetUri env p) := by
  unfold fsGetUri
  exact TP_ite (TP_throwErr _) (TP_mPure _)

theorem TP_webViewSetServerBasePath (env : Env) (p : String) :
    TP (webViewSetServerBasePath env p) := by
  unfold webViewSetServerBasePath
  exact TP_ite (TP_throwErr _) (TP_mPure _)

theorem TP_webViewPersistServerBasePath (env : Env) : TP (webViewPersistServerBasePath env) := by
  unfold webViewPersistServerBasePath
  exact TP_ite (TP_throwErr _) (TP_mPure _)

theorem TP_createDir (p : String) : TP (createDir p) := by
  unfold createDir
  exact TP_ite (TP_mPure _) (TP_tryCatchM (TP_fsMkdir _) (fun _ => TP_mPure _))

theorem TP_removeDir (env : Env) (p : String) : TP (removeDir env p) := by
  unfold removeDir
  exact TP_ite (TP_mPure _) (TP_tryCatchM (TP_fsRmdir _ _) (fun _ => TP_mPure _))

theorem TP_setCurrentRelease (env : Env) (n : String) (t : Nat) :
    TP (setCurrentRelease env n t) := TP_fsWriteFile _ _ _

theorem TP_deleteOldReleases (env : Env) (n : String) : TP (deleteOldReleases env n) := by
  unfold deleteOldReleases
  apply TP_mBind (TP_fsReaddir _ _)
  intro l
  apply TP_ite _ (TP_mPure _)
  apply TP_forEachM
  intro a
  exact TP_ite (TP_mBind (TP_emit _) (fun _ => TP_fsRmdir _ _)) (TP_mPure _)

theorem TP_activateRelease (env : Env) (n : String) : TP (activateRelease env n) := by
  unfold activateRelease
  apply TP_mBind (TP_fsGetUri _ _)
  intro u
  apply TP_mBind (TP_setCurrentRelease _ _ _)
  intro _
  apply TP_mBind (TP_webViewSetServerBasePath _ _)
  intro _
  exact TP_webViewPersistServerBasePath _

theorem PO_mPure {α : Type} (a : α) : PO (mPure a) := fun _ _ _ => rfl

theorem PO_throwErr {α : Type} (e : String) : PO (throwErr e : M α) := fun _ _ _ => rfl

theorem PO_emit (e : Ev) : PO (emit e) := fun _ _ _ => rfl

theorem PO_mBind {α β : Type} {m : M α} {f : α → M β} (hm : PO m) (hf : ∀ a, PO (f a)) :
    PO (mBind m f) := by
  intro s p hp
  unfold mBind
  rcases hms : m s with ⟨r, s1⟩
  have h1 : lookupFile s1.fs p = lookupFile s.fs p := by
    have hh := hm s p hp
    rw [hms] at hh
    exact hh
  cases r with
  | ok a => rw [hf a s1 p hp, h1]
  | error e => exact h1

theorem PO_tryCatchM {α : Type} {m : M α} {h : String → M α} (hm : PO m)
    (hh : ∀ e, PO (h e)) : PO (tryCatchM m h) := by
  intro s p hp
  unfold tryCatchM
  rcases hms : m s with ⟨r, s1⟩
  have h1 : lookupFile s1.fs p = lookupFile s.fs p := by
    have t := hm s p hp
    rw [hms] at t
    exact t
  cases r with
  | ok a => exact h1
  | error e => rw [hh e s1 p hp, h1]

theorem PO_ite {α : Type} {c : Prop} [Decidable c] {m1 m2 : M α} (h1 : PO m1) (h2 : PO m2) :
    PO (if c then m1 else m2) := by
  by_cases hc : c
  · rw [if_pos hc]; exact h1
  · rw [if_neg hc]; exact h2

theorem PO_forEachM {α : Type} (l : List α) (f : α → M Unit) (hf : ∀ a, PO (f a)) :
    PO (forEachM l f) := by
  induction l with
  | nil => exact PO_mPure ()
  | cons x xs ih => exact PO_mBind (hf x) (fun _ => ih)

theorem PO_getFS : PO getFS := fun _ _ _ => rfl

theorem ne_of_stg_of_not_stg {p q : String} (hp : stgPath p = true) (hq : stgPath q = false) :
    ¬(q = p) := by
  intro hqp
  rw [hqp, hp] at hq
  exact Bool.noConfusion hq

theorem mBind_getFS {β : Type} (k : FS → M β) (s : St) : mBind getFS k s = k s.fs s := rfl

theorem PO_fsMkdir (p : String) : PO (fsMkdir p) := by
  intro s q hq
  unfold fsMkdir
  rw [mBind_getFS]
  by_cases h : s.fs.dirs.contains p = true
  · rw [if_pos h]
    rfl
  · rw [if_neg h]
    rfl

theorem PO_createDir (p : String) : PO (createDir p) := by
  unfold createDir
  exact PO_ite (PO_mPure _) (PO_tryCatchM (PO_fsMkdir _) (fun _ => PO_mPure _))

theorem PO_fsRmdir_next (env : Env) : PO (fsRmdir env "releases/next") := by
  intro s q hq
  unfold fsRmdir
  by_cases hf : env.rmdirFail "releases/next" = true
  · rw [if_pos hf]
    rfl
  · rw [if_neg hf, mBind_getFS]
    unfold rmdirCore
    by_cases he : fsExists s.fs "releases/next" = true
    · rw [if_pos he]
      show lookupFile { files := _, dirs := _ } q = lookupFile s.fs q
      unfold lookupFile
      rw [find?_filter_keep]
      intro e hev
      have he1 : e.1 = q := by simpa [beq_iff_eq] using hev
      have hu : underPath "releases/next" e.1 = false := by rw [he1]; exact hq
      simp [hu]
    · rw [if_neg he]
      rfl

theorem PO_removeDir_next (env : Env) : PO (removeDir env "releases/next") := by
  unfold removeDir
  exact PO_ite (PO_mPure _) (PO_tryCatchM (PO_fsRmdir_next _) (fun _ => PO_mPure _))

theorem PO_fsWriteFile_stg (env : Env) (p : String) (d : FileData) (h : stgPath p = true) :
    PO (fsWriteFile env p d) := by
  intro s q hq
  unfold fsWriteFile
  by_cases hw : env.writeFail p = true
  · rw [if_pos hw]
    rfl
  · rw [if_neg hw, mBind_getFS]
    show lookupFile (putFile s.fs p d) q = lookupFile s.fs q
    exact lookupFile_putFile_ne _ _ _ _ (ne_of_stg_of_not_stg h hq)

theorem PO_fsCopy_stg (env : Env) (src dst : String) (h : stgPath dst = true) :
    PO (fsCopy env src dst) := by
  intro s q hq
  unfold fsCopy
  by_cases hc : env.copyFail dst = true
  · rw [if_pos hc]
    rfl
  · rw [if_neg hc, mBind_getFS]
    cases lookupFile s.fs src with
    | none => rfl
    | some d =>
      show lookupFile (putFile s.fs dst d) q = lookupFile s.fs q
      exact lookupFile_putFile_ne _ _ _ _ (ne_of_stg_of_not_stg h hq)

theorem PO_downloadFileFromWebServer_stg (env : Env) (url p : String)
    (h : stgPath p = true) : PO (downloadFileFromWebServer env url p) := by
  apply PO_mBind (PO_emit _)
  intro _
  intro s q hq
  by_cases hd : env.downloadFail p = true
  · rw [if_pos hd]
    rfl
  · rw [if_neg hd, mBind_getFS]
    show lookupFile (putFile s.fs p _) q = lookupFile s.fs q
    exact lookupFile_putFile_ne _ _ _ _ (ne_of_stg_of_not_stg h hq)

theorem PO_copyFromPreviousRelease_stg (env : Env) (src dst : String)
    (h : stgPath dst = true) : PO (copyFromPreviousRelease env src dst) := by
  unfold copyFromPreviousRelease
  exact PO_mBind (PO_emit _) (fun _ => PO_fsCopy_stg _ _ _ h)

theorem PO_execTask_reconcile (env : Env) (ac : Checksum) (url : String) (file : ChecksumFile) :
    PO (execTask env (reconcileTask ac url file)) := by
  unfold reconcileTask
  by_cases hm : (ac.files.any (fun item => item.path == file.path && item.hash == file.hash)) = true
  · rw [if_pos hm]
    exact PO_copyFromPreviousRelease_stg _ _ _ (stgPath_next_append file.path)
  · rw [if_neg hm]
    exact PO_downloadFileFromWebServer_stg _ _ _ (stgPath_next_append file.path)

theorem PO_getServerChecksum (env : Env) (url : String) : PO (getServerChecksum env url) := by
  unfold getServerChecksum
  exact PO_mBind (PO_emit _) (fun _ => PO_mPure _)

-- --------------------------------------------------------------
-- Pre-commit preservation: a failing run that never performed the
-- commit rename leaves every file outside the staging area intact.
-- --------------------------------------------------------------

/-- On every erroring run whose final trace holds no commit (`renameOp`)
event, files outside the staging area are unchanged. -/
def PreserveOnErr (m : M Bool) : Prop :=
  ∀ s e s', m s = (Except.error e, s') →
    (∀ x y, Ev.renameOp x y ∉ s'.trace) →
    ∀ p, stgPath p = false → lookupFile s'.fs p = lookupFile s.fs p

theorem PreserveOnErr_mBind_PO {α : Type} {m : M α} (hm : PO m) {k : α → M Bool}
    (hk : ∀ a, PreserveOnErr (k a)) : PreserveOnErr (mBind m k) := by
  intro s e s' hrun hnorn p hp
  rcases hms : m s with ⟨r, s1⟩
  have h1 : lookupFile s1.fs p = lookupFile s.fs p := by
    have hh := hm s p hp
    rw [hms] at hh
    exact hh
  unfold mBind at hrun
  rw [hms] at hrun
  cases r with
  | ok a =>
    rw [hk a s1 e s' hrun hnorn p hp, h1]
  | error e0 =>
    have hs : s' = s1 := congrArg Prod.snd hrun.symm
    rw [hs, h1]

theorem fsRename_err_state {env : Env} {a b : String} {s s1 : St} {e : String}
    (h : fsRename env a b s = (Except.error e, s1)) : s1 = s := by
  unfold fsRename at h
  by_cases hf : env.renameFail = true
  · rw [if_pos hf] at h
    exact (congrArg Prod.snd h).symm
  · rw [if_neg hf, mBind_getFS] at h
    cases hc : renameCore s.fs a b with
    | none =>
      rw [hc] at h
      exact (congrArg Prod.snd h).symm
    | some fs' =>
      rw [hc] at h
      exact absurd (congrArg Prod.fst h) (by simp [setFS, mBind, emit])

theorem fsRename_ok_trace {env : Env} {a b : String} {s s1 : St} {u : Unit}
    (h : fsRename env a b s = (Except.ok u, s1)) : Ev.renameOp a b ∈ s1.trace := by
  unfold fsRename at h
  by_cases hf : env.renameFail = true
  · rw [if_pos hf] at h
    exact absurd (congrArg Prod.fst h) (by simp [throwErr])
  · rw [if_neg hf, mBind_getFS] at h
    cases hc : renameCore s.fs a b with
    | none =>
      rw [hc] at h
      exact absurd (congrArg Prod.fst h) (by simp [throwErr])
    | some fs' =>
      rw [hc] at h
      have hs : s1 = { fs := fs', trace := s.trace ++ [Ev.renameOp a b] } :=
        (congrArg Prod.snd h).symm
      rw [hs]
      exact List.mem_append_right _ (List.mem_singleton.mpr rfl)

theorem PreserveOnErr_commitTail (env : Env) (c : Checksum) :
    PreserveOnErr (commitTail env c) := by
  intro s e s' hrun hnorn p hp
  unfold commitTail at hrun
  rcases hr : fsRename env "releases/next" ("releases/" ++ c.id) s with ⟨r, s1⟩
  cases r with
  | error e0 =>
    rw [mBind_err hr] at hrun
    have hs : s' = s1 := congrArg Prod.snd hrun.symm
    rw [hs, fsRename_err_state hr]
  | ok u =>
    rw [mBind_ok hr] at hrun
    have hmem : Ev.renameOp "releases/next" ("releases/" ++ c.id) ∈ s1.trace :=
      fsRename_ok_trace hr
    have htp : TP (mBind (deleteOldReleases env c.id) (fun _ =>
        mBind (activateRelease env c.id) (fun _ => mPure true))) :=
      TP_mBind (TP_deleteOldReleases _ _) (fun _ =>
        TP_mBind (TP_activateRelease _ _) (fun _ => TP_mPure _))
    have hmem' := htp s1 _ hmem
    rw [hrun] at hmem'
    exact absurd hmem' (hnorn _ _)

theorem updateFromManifest_preserve (env : Env) (url : String) (c : Checksum) (rel : Release) :
    PreserveOnErr (updateFromManifest env url c rel) := by
  unfold updateFromManifest
  apply PreserveOnErr_mBind_PO (PO_createDir _)
  intro _
  apply PreserveOnErr_mBind_PO (PO_removeDir_next _)
  intro _
  apply PreserveOnErr_mBind_PO (PO_forEachM _ _ (fun a => PO_createDir _))
  intro _
  apply PreserveOnErr_mBind_PO (PO_forEachM _ _ (fun f => PO_execTask_reconcile _ _ _ f))
  intro _
  apply PreserveOnErr_mBind_PO (PO_fsWriteFile_stg _ _ _ (by decide))
  intro _
  exact PreserveOnErr_commitTail env c

-- --------------------------------------------------------------
-- Run lemmas: symbolic execution of the straight-line prefix of a
-- sync attempt under hypotheses about the store and the environment.
-- --------------------------------------------------------------

theorem fsReadFile_found {s : St} {p : String} {d : FileData}
    (h : lookupFile s.fs p = some d) : fsReadFile p s = (Except.ok d, s) := by
  have h0 : fsReadFile p s =
      (match lookupFile s.fs p with
       | none => (throwErr "File does not exist" : M FileData)
       | some d => mPure d) s := rfl
  rw [h0, h]
  rfl

theorem fsReadFile_missing {s : St} {p : String}
    (h : lookupFile s.fs p = none) : fsReadFile p s = (Except.error "File does not exist", s) := by
  have h0 : fsReadFile p s =
      (match lookupFile s.fs p with
       | none => (throwErr "File does not exist" : M FileData)
       | some d => mPure d) s := rfl
  rw [h0, h]
  rfl

theorem fsWriteFile_ok {env : Env} {p : String} (d : FileData) {s : St}
    (h : env.writeFail p = false) :
    fsWriteFile env p d s = (Except.ok (), { s with fs := putFile s.fs p d }) := by
  unfold fsWriteFile
  rw [if_neg (by rw [h]; exact Bool.noConfusion)]
  rfl

theorem getServerChecksum_run (env : Env) (u : String) (s : St) :
    getServerChecksum env u s =
      (Except.ok env.serverChecksum, { s with trace := s.trace ++ [Ev.fetchManifest u] }) := rfl

theorem getCurrentRelease_found {s : St} {aid : String} {t0 : Nat} {ac : Checksum}
    (h1 : lookupFile s.fs "version.json" = some (FileData.verFile aid t0))
    (h2 : lookupFile s.fs ("releases/" ++ aid ++ "/checksum.json") =
      some (FileData.checksumFile ac)) :
    getCurrentRelease s =
      (Except.ok (some { id := aid, updated := t0, checksum := ac }), s) := by
  unfold getCurrentRelease
  apply tryCatchM_ok
  simp only [mBind_ok (fsReadFile_found h1)]
  simp only [mBind_ok (fsReadFile_found h2)]
  rfl

theorem getCurrentRelease_missing {s : St}
    (h : lookupFile s.fs "version.json" = none) :
    getCurrentRelease s = (Except.ok none, s) := by
  unfold getCurrentRelease
  rw [tryCatchM_err (mBind_err (fsReadFile_missing h))]
  rfl

theorem syncAttempt_gate_blocked {env : Env} {url : String} {d : Nat} {s : St} {rel : Release}
    (hcur : getCurrentRelease s = (Except.ok (some rel), s))
    (hg : env.now < rel.updated + d) :
    syncAttempt env url d s = (Except.error "update check not due yet", s) := by
  unfold syncAttempt
  simp only [mBind_ok hcur, mBind_mPure, if_pos hg]
  rfl

theorem syncAttempt_fetch_none {env : Env} {url : String} {d : Nat} {s : St} {rel : Release}
    (hcur : getCurrentRelease s = (Except.ok (some rel), s))
    (hg : ¬(env.now < rel.updated + d))
    (hsc : env.serverChecksum = none) :
    syncAttempt env url d s = (Except.error "Unable to get checksum from server",
      { s with trace := s.trace ++ [Ev.fetchManifest (url ++ "/checksum.json")] }) := by
  unfold syncAttempt
  simp only [mBind_ok hcur, mBind_mPure, if_neg hg]
  simp only [mBind_ok (getServerChecksum_run env (url ++ "/checksum.json") s)]
  rw [hsc]
  rfl

theorem syncAttempt_same_version {env : Env} {url : String} {d : Nat} {s : St} {rel : Release}
    {sc : Checksum}
    (hcur : getCurrentRelease s = (Except.ok (some rel), s))
    (hg : ¬(env.now < rel.updated + d))
    (hsc : env.serverChecksum = some sc)
    (hid : (rel.checksum.id == sc.id) = true)
    (hw : env.writeFail "version.json" = false) :
    syncAttempt env url d s = (Except.error "Latest release already installed",
      { fs := putFile s.fs "version.json" (FileData.verFile sc.id env.now),
        trace := s.trace ++ [Ev.fetchManifest (url ++ "/checksum.json")] }) := by
  unfold syncAttempt
  simp only [mBind_ok hcur, mBind_mPure, if_neg hg]
  simp only [mBind_ok (getServerChecksum_run env (url ++ "/checksum.json") s)]
  rw [hsc]
  simp only [mBind_mPure]
  rw [if_pos hid]
  unfold setCurrentRelease
  rw [mBind_assoc]
  simp only [mBind_ok (fsWriteFile_ok (FileData.verFile sc.id env.now) hw)]
  rfl

theorem syncAttempt_to_update {env : Env} {url : String} {d : Nat} {s : St} {rel : Release}
    {sc : Checksum}
    (hcur : getCurrentRelease s = (Except.ok (some rel), s))
    (hg : ¬(env.now < rel.updated + d))
    (hsc : env.serverChecksum = some sc)
    (hid : (rel.checksum.id == sc.id) = false) :
    syncAttempt env url d s = updateFromManifest env url sc rel
      { s with trace := s.trace ++ [Ev.fetchManifest (url ++ "/checksum.json")] } := by
  unfold syncAttempt
  simp only [mBind_ok hcur, mBind_mPure, if_neg hg]
  simp only [mBind_ok (getServerChecksum_run env (url ++ "/checksum.json") s)]
  rw [hsc]
  simp only [mBind_mPure]
  rw [if_neg (show ¬((rel.checksum.id == sc.id) = true) by rw [hid]; exact Bool.noConfusion)]
  simp only [mBind_mPure]

theorem sync_of_attempt_err {env : Env} {url : String} {d : Nat} {s s' : St} {e : String}
    (hn : env.isNative = true)
    (h : syncAttempt env url d s = (Except.error e, s')) :
    sync env url d s = (Except.ok false, s') := by
  unfold sync
  rw [if_pos hn, tryCatchM_err h]
  rfl

theorem sync_of_attempt_ok {env : Env} {url : String} {d : Nat} {s s' : St} {b : Bool}
    (hn : env.isNative = true)
    (h : syncAttempt env url d s = (Except.ok b, s')) :
    sync env url d s = (Except.ok b, s') := by
  unfold sync
  rw [if_pos hn]
  exact tryCatchM_ok h

-- --------------------------------------------------------------
-- Concrete fixtures used by the claim theorems: a store holding an
-- installed release `v1`, and environments driving the scenarios.
-- --------------------------------------------------------------

/-- The manifest of the installed release `v1` (two files). -/
def ac1 : Checksum :=
  { id := "v1", timestamp := 0,
    files := [{ path := "a.js", hash := "h1" }, { path := "b.js", hash := "h2" }] }

/-- A remote manifest `v2`: `a.js` unchanged, `b.js` changed. -/
def sc2 : Checksum :=
  { id := "v2", timestamp := 50,
    files := [{ path := "a.js", hash := "h1" }, { path := "b.js", hash := "h3" }] }

/-- The release record the store below describes. -/
def relV1 : Release := { id := "v1", updated := 0, checksum := ac1 }

/-- A data directory holding installed release `v1` and its pointer. -/
def fs0 : FS :=
  { files := [("version.json", FileData.verFile "v1" 0),
              ("releases/v1/checksum.json", FileData.checksumFile ac1),
              ("releases/v1/a.js", FileData.remote "ra"),
              ("releases/v1/b.js", FileData.remote "rb")],
    dirs := ["releases"] }

/-- Initial run-time state over `fs0`. -/
def s0 : St := { fs := fs0, trace := [] }

/-- An empty data directory (fresh install). -/
def sEmpty : St := { fs := { files := [], dirs := [] }, trace := [] }

/-- A fault-free environment at time 100000 with no network results. -/
def okEnv : Env :=
  { isNative := true, now := 100000,
    serverChecksum := none, bundleChecksum := none,
    bundleFileFail := fun _ => false, copyFail := fun _ => false,
    downloadFail := fun _ => false, writeFail := fun _ => false,
    renameFail := false, rmdirFail := fun _ => false, readdirFail := false,
    getUriFail := false, setBasePathFail := false, persistFail := false }

/-- State after a failed fetch: only the manifest request happened. -/
def stW : St := { fs := fs0, trace := [Ev.fetchManifest ("https://srv" ++ "/checksum.json")] }

/-- Fault-free update environment serving `v2`. -/
def envC4 : Env := { okEnv with serverChecksum := some sc2 }

/-- Update environment serving `v2` whose webview base-path call fails. -/
def envC2 : Env := { okEnv with serverChecksum := some sc2, setBasePathFail := true }

/-- Environment whose remote manifest equals the installed one. -/
def envC6 : Env := { okEnv with serverChecksum := some ac1 }

/-- A remote manifest with a duplicated path. -/
def scDup : Checksum :=
  { id := "v2", timestamp := 50,
    files := [{ path := "d.js", hash := "h1" }, { path := "d.js", hash := "h2" }] }

/-- Environment serving the duplicate-path manifest. -/
def envC7 : Env := { okEnv with serverChecksum := some scDup }

/-- A store with two stale releases `v1` (active) and `v0` plus pointer. -/
def fs8 : FS :=
  { files := [("version.json", FileData.verFile "v1" 0),
              ("releases/v1/checksum.json", FileData.checksumFile ac1),
              ("releases/v1/a.js", FileData.remote "ra"),
              ("releases/v1/b.js", FileData.remote "rb"),
              ("releases/v0/a.js", FileData.remote "r0")],
    dirs := ["releases"] }

/-- Initial state over `fs8`. -/
def st8 : St := { fs := fs8, trace := [] }

/-- Update environment where deleting `releases/v1` fails during GC. -/
def envC8 : Env :=
  { okEnv with serverChecksum := some sc2,
               rmdirFail := fun p => p == "releases/v1" }

/-- A remote manifest whose id holds a path-traversal sequence. -/
def scEvil : Checksum :=
  { id := "../evil", timestamp := 50, files := [{ path := "a.js", hash := "h9" }] }

/-- Environment serving the traversal-id manifest. -/
def envC9 : Env := { okEnv with serverChecksum := some scEvil }

/-- A remote manifest with parametric id `i` and one changed file. -/
def c9Checksum (i : String) : Checksum :=
  { id := i, timestamp := 50, files := [{ path := "a.js", hash := "h9" }] }

/-- Environment serving the parametric-id manifest. -/
def c9Env (i : String) : Env := { okEnv with serverChecksum := some (c9Checksum i) }

/-- The state reached just before the commit rename when syncing `c9Env i`
over `s0`: the staging area holds the downloaded `a.js` and the manifest. -/
def c9Staged (i : String) : St :=
  { fs := { files := [("releases/next/checksum.json", FileData.checksumFile (c9Checksum i)),
                      ("releases/next/a.js", FileData.remote "https://srv/a.js"),
                      ("version.json", FileData.verFile "v1" 0),
                      ("releases/v1/checksum.json", FileData.checksumFile ac1),
                      ("releases/v1/a.js", FileData.remote "ra"),
                      ("releases/v1/b.js", FileData.remote "rb")],
            dirs := ["releases/next/", "releases"] },
    trace := [Ev.fetchManifest "https://srv/checksum.json",
              Ev.downloadOp "https://srv/a.js" "releases/next/a.js"] }

/-- A store with two committed releases and no pointer, as left right after
the commit of `v2` succeeding `v1`. -/
def fsGC : FS :=
  { files := [("releases/v1/a.js", FileData.remote "ra"),
              ("releases/v2/a.js", FileData.remote "rb")],
    dirs := ["releases"] }

/-- A bundled baseline manifest with an old timestamp. -/
def bc0 : Checksum := { id := "v0", timestamp := 0, files := [{ path := "a.js", hash := "h1" }] }

/-- First-run environment: baseline available, remote also reachable. -/
def envC5 : Env :=
  { okEnv with bundleChecksum := some bc0,
               serverChecksum := some { id := "v0", timestamp := 0, files := [] } }

/-- A bundled baseline manifest with two files, one in a subdirectory. -/
def bc2 : Checksum :=
  { id := "v0", timestamp := 7,
    files := [{ path := "a.js", hash := "h1" }, { path := "sub/b.js", hash := "h2" }] }

/-- Bootstrap environment where copying `sub/b.js` from the bundle fails. -/
def envC10 : Env :=
  { okEnv with bundleChecksum := some bc2,
               bundleFileFail := fun p => p == "releases/v0/sub/b.js" }

/-- Recogniser for local-copy events. -/
def isCopyEv : Ev → Bool
  | Ev.copyOp _ _ => true
  | _ => false

/-- Recogniser for network-download events. -/
def isDownloadEv : Ev → Bool
  | Ev.downloadOp _ _ => true
  | _ => false

/-- Target path of a reconciliation operation. -/
def fileOpTarget : FileOp → String
  | FileOp.copy _ t => t
  | FileOp.download _ t => t

-- --------------------------------------------------------------
-- Claim theorems
-- --------------------------------------------------------------

/-- C1: for every input and every collaborator behaviour, `sync` resolves to
a boolean and never propagates an error: whenever the attempt body raises,
`sync` returns `false` (and it returns `false` outright off native
platforms). -/
theorem sync_never_propagates (env : Env) (url : String) (d : Nat) (s : St) :
    (∃ b s', sync env url d s = (Except.ok b, s')) ∧
    (env.isNative = true → ∀ e s', syncAttempt env url d s = (Except.error e, s') →
        sync env url d s = (Except.ok false, s')) ∧
    (env.isNative = false → sync env url d s = (Except.ok false, s)) := by
  refine ⟨?_, ?_, ?_⟩
  · by_cases hn : env.isNative = true
    · rcases hat : syncAttempt env url d s with ⟨r, s'⟩
      cases r with
      | ok b => exact ⟨b, s', sync_of_attempt_ok hn hat⟩
      | error e => exact ⟨false, s', sync_of_attempt_err hn hat⟩
    · refine ⟨false, s, ?_⟩
      unfold sync
      rw [if_neg hn]
      rfl
  · intro hn e s' h
    exact sync_of_attempt_err hn h
  · intro hn
    unfold sync
    rw [if_neg (by rw [hn]; exact Bool.noConfusion)]
    rfl

/-- Witness for C1 at a concrete failing behaviour (unreachable server). -/
theorem sync_never_propagates_witness :
    sync okEnv "https://srv" 3600 s0 = (Except.ok false, stW) :=
  (sync_never_propagates okEnv "https://srv" 3600 s0).2.1 rfl
    "Unable to get checksum from server" stW (by rfl)

/-- C3 (code bug): after committing `v2` succeeding `v1`, GC deletes the
active release directory as well: the guard `oldReleaseName.name !==
activeReleaseName` compares `undefined` with the name (readdir entries are
strings under the pinned filesystem plugin), so no entry is ever skipped
and both `releases/v1` and `releases/v2` are removed. -/
theorem deleteOldReleases_removes_active_release :
    fsExists fsGC "releases/v2" = true ∧
    (deleteOldReleases okEnv "v2" { fs := fsGC, trace := [] }).1 = Except.ok () ∧
    lookupFile (deleteOldReleases okEnv "v2" { fs := fsGC, trace := [] }).2.fs
      "releases/v2/a.js" = none ∧
    fsExists (deleteOldReleases okEnv "v2" { fs := fsGC, trace := [] }).2.fs
      "releases/v2" = false ∧
    Ev.rmdirOp "releases/v2" ∈ (deleteOldReleases okEnv "v2" { fs := fsGC, trace := [] }).2.trace :=
  ⟨rfl, rfl, rfl, rfl, by decide⟩

/-- C4: the per-file decision issues a local copy exactly when the active
manifest has an entry with identical path and identical hash, otherwise a
network download; every operation targets the staged path of a listed file;
and on the concrete A-unchanged/B-changed scenario the successful sync
issues exactly one copy and exactly one download. -/
theorem sync_reconciliation (active : Checksum) (url : String) (file : ChecksumFile) :
    (reconcileTask active url file =
        FileOp.copy ("releases/" ++ active.id ++ "/" ++ file.path)
          ("releases/next/" ++ file.path) ↔
      ∃ item ∈ active.files, item.path = file.path ∧ item.hash = file.hash) ∧
    ((¬ ∃ item ∈ active.files, item.path = file.path ∧ item.hash = file.hash) →
      reconcileTask active url file =
        FileOp.download (url ++ "/" ++ file.path) ("releases/next/" ++ file.path)) ∧
    fileOpTarget (reconcileTask active url file) = "releases/next/" ++ file.path ∧
    (sync envC4 "https://srv" 3600 s0).1 = Except.ok true ∧
    ((sync envC4 "https://srv" 3600 s0).2.trace.countP isCopyEv = 1 ∧
     (sync envC4 "https://srv" 3600 s0).2.trace.countP isDownloadEv = 1) ∧
    Ev.copyOp "releases/v1/a.js" "releases/next/a.js"
      ∈ (sync envC4 "https://srv" 3600 s0).2.trace ∧
    Ev.downloadOp "https://srv/b.js" "releases/next/b.js"
      ∈ (sync envC4 "https://srv" 3600 s0).2.trace := by
  have hmatch : (active.files.any
      (fun item => item.path == file.path && item.hash == file.hash)) = true ↔
      ∃ item ∈ active.files, item.path = file.path ∧ item.hash = file.hash := by
    rw [List.any_eq_true]
    constructor
    · rintro ⟨item, hi, hb⟩
      rcases Bool.and_eq_true_iff.mp hb with ⟨hp, hh⟩
      exact ⟨item, hi, beq_iff_eq.mp hp, beq_iff_eq.mp hh⟩
    · rintro ⟨item, hi, hp, hh⟩
      exact ⟨item, hi, Bool.and_eq_true_iff.mpr ⟨beq_iff_eq.mpr hp, beq_iff_eq.mpr hh⟩⟩
  refine ⟨?_, ?_, ?_, rfl, ⟨by decide, by decide⟩, by decide, by decide⟩
  · constructor
    · intro hc
      apply hmatch.mp
      by_cases hb : (active.files.any
          (fun item => item.path == file.path && item.hash == file.hash)) = true
      · exact hb
      · exact absurd hc (by unfold reconcileTask; rw [if_neg hb]; intro hx; cases hx)
    · intro hex
      unfold reconcileTask
      rw [if_pos (hmatch.mpr hex)]
  · intro hex
    unfold reconcileTask
    rw [if_neg (fun hb => hex (hmatch.mp hb))]
  · unfold reconcileTask
    by_cases hb : (active.files.any
        (fun item => item.path == file.path && item.hash == file.hash)) = true
    · rw [if_pos hb]
      rfl
    · rw [if_neg hb]
      rfl

/-- Witness for C4 at a file absent from the active manifest, discharging
the no-match hypothesis of the download direction. -/
theorem sync_reconciliation_witness :
    reconcileTask ac1 "u" { path := "c.js", hash := "h9" } =
      FileOp.download ("u" ++ "/" ++ "c.js") ("releases/next/" ++ "c.js") :=
  (sync_reconciliation ac1 "u" { path := "c.js", hash := "h9" }).2.1 (by decide)

/-- C7 counterexample: a manifest with two entries for path `d.js` is not
rejected: the sync runs the full plan (two download operations for the same
staged path) and completes, returning `true`. -/
theorem sync_duplicate_paths_not_rejected :
    (sync envC7 "https://srv" 3600 s0).1 = Except.ok true ∧
    (sync envC7 "https://srv" 3600 s0).2.trace.countP
      (fun e => e == Ev.downloadOp "https://srv/d.js" "releases/next/d.js") = 2 :=
  ⟨rfl, by decide⟩

/-- C7 amended: the implementation performs no manifest validation at all:
the fetch step returns whatever the collaborator supplied without inspecting
it, the plan issues exactly one operation per manifest entry (duplicates
included), and the concrete duplicate-path sync completes with `true`. -/
theorem sync_duplicate_paths_processed :
    (∀ (env : Env) (u : String) (s : St), getServerChecksum env u s =
      (Except.ok env.serverChecksum, { s with trace := s.trace ++ [Ev.fetchManifest u] })) ∧
    (∀ (c active : Checksum) (url : String),
      (c.files.map (reconcileTask active url)).length = c.files.length) ∧
    (sync envC7 "https://srv" 3600 s0).1 = Except.ok true ∧
    Ev.renameOp "releases/next" "releases/v2" ∈ (sync envC7 "https://srv" 3600 s0).2.trace :=
  ⟨fun env u s => getServerChecksum_run env u s,
   fun c active url => List.length_map _ _,
   rfl, by decide⟩

/-- C8 counterexample: with an injected failure deleting `releases/v1`
during GC, the attempt raises out of `deleteOldReleases` (which has no
try/catch) and `sync` reports `false`, although the new release was already
committed — contradicting the claim that the failure is skipped and the
sync still returns `true`. -/
theorem sync_gc_failure_fails_sync :
    (syncAttempt envC8 "https://srv" 3600 st8).1 = Except.error "rmdir failed" ∧
    (sync envC8 "https://srv" 3600 st8).1 = Except.ok false ∧
    Ev.renameOp "releases/next" "releases/v2" ∈ (sync envC8 "https://srv" 3600 st8).2.trace :=
  ⟨rfl, rfl, by decide⟩

/-- C8 amended: an individual deletion failure during GC is not caught: it
aborts the GC loop (the remaining stale release `v0` is neither attempted
nor deleted) and fails the whole sync with `false`, even though the new
release is already committed (the rename is in the trace). -/
theorem sync_gc_failure_aborts :
    (sync envC8 "https://srv" 3600 st8).1 = Except.ok false ∧
    Ev.renameOp "releases/next" "releases/v2" ∈ (sync envC8 "https://srv" 3600 st8).2.trace ∧
    lookupFile (sync envC8 "https://srv" 3600 st8).2.fs "releases/v0/a.js" =
      some (FileData.remote "r0") ∧
    Ev.rmdirOp "releases/v0" ∉ (sync envC8 "https://srv" 3600 st8).2.trace :=
  ⟨rfl, by decide, rfl, by decide⟩

/-- C9 counterexample: a manifest whose id is `../evil` is not rejected: the
sync uses the id directly to form the release path in the commit rename and
completes, returning `true`. -/
theorem sync_traversal_id_not_rejected :
    (sync envC9 "https://srv" 3600 s0).1 = Except.ok true ∧
    Ev.renameOp "releases/next" "releases/../evil" ∈ (sync envC9 "https://srv" 3600 s0).2.trace :=
  ⟨rfl, by decide⟩

/-- C5 counterexample: on a fresh install (no pointer) with an old bundled
timestamp, the very first invocation bootstraps and then proceeds to the
remote check: the remote manifest fetch is in the trace. -/
theorem sync_first_run_fetches_remote :
    lookupFile sEmpty.fs "version.json" = none ∧
    Ev.fetchManifest "https://srv/checksum.json" ∈ (sync envC5 "https://srv" 3600 sEmpty).2.trace :=
  ⟨rfl, by decide⟩

/-- C2 counterexample: when the webview base-path call fails during
activation, the attempt aborts (sync returns `false`) but the persisted
pointer has already been rewritten to `v2` and the old release's content was
already deleted by GC — the pre-sync state is not preserved. -/
theorem sync_activation_failure_mutates_state :
    (syncAttempt envC2 "https://srv" 3600 s0).1 = Except.error "setServerBasePath failed" ∧
    (sync envC2 "https://srv" 3600 s0).1 = Except.ok false ∧
    lookupFile fs0 "version.json" = some (FileData.verFile "v1" 0) ∧
    lookupFile (sync envC2 "https://srv" 3600 s0).2.fs "version.json" =
      some (FileData.verFile "v2" 100000) ∧
    lookupFile fs0 "releases/v1/a.js" = some (FileData.remote "ra") ∧
    lookupFile (sync envC2 "https://srv" 3600 s0).2.fs "releases/v1/a.js" = none :=
  ⟨rfl, rfl, rfl, rfl, rfl, rfl⟩

theorem ne_true_of_eq_false {b : Bool} (h : b = false) : ¬(b = true) := by
  rw [h]
  exact Bool.noConfusion

theorem releases_path_ne_version (x y : String) : ¬("releases/" ++ x ++ y = "version.json") := by
  intro h
  have h2 := congrArg String.data h
  rw [String.data_append, String.data_append] at h2
  have hr : ("releases/" : String).data = 'r' :: ("eleases/" : String).data := rfl
  have hv : ("version.json" : String).data = 'v' :: ("ersion.json" : String).data := rfl
  rw [hr, hv, List.cons_append, List.cons_append] at h2
  injection h2 with hc _
  exact absurd hc (by decide)

/-- C2 amended: whenever the attempt fails without having performed the
commit rename (no `renameOp` in the trace), sync returns `false` and every
file outside the staging area — in particular the persisted pointer
`version.json` and the active release's content — is unchanged.  (The
counterexample shows this does not extend past the commit: GC and
activation mutate the old release and the pointer before a later failure.) -/
theorem sync_preserves_state_before_commit {env : Env} {url : String} {d : Nat} {s : St}
    {aid : String} {t0 : Nat} {ac : Checksum} {e : String} {s' : St}
    (hn : env.isNative = true)
    (h1 : lookupFile s.fs "version.json" = some (FileData.verFile aid t0))
    (h2 : lookupFile s.fs ("releases/" ++ aid ++ "/checksum.json") =
      some (FileData.checksumFile ac))
    (hdiff : ∀ sc, env.serverChecksum = some sc → ¬(ac.id = sc.id))
    (herr : syncAttempt env url d s = (Except.error e, s'))
    (hnorn : ∀ x y, Ev.renameOp x y ∉ s'.trace) :
    sync env url d s = (Except.ok false, s') ∧
    (∀ p, stgPath p = false → lookupFile s'.fs p = lookupFile s.fs p) ∧
    lookupFile s'.fs "version.json" = lookupFile s.fs "version.json" := by
  have hcur := getCurrentRelease_found h1 h2
  have hpres : ∀ p, stgPath p = false → lookupFile s'.fs p = lookupFile s.fs p := by
    by_cases hg : env.now < t0 + d
    · have hb := @syncAttempt_gate_blocked env url d s
        { id := aid, updated := t0, checksum := ac } hcur hg
      rw [hb] at herr
      have hs : s = s' := congrArg Prod.snd herr
      intro p hp
      rw [← hs]
    · cases hscv : env.serverChecksum with
      | none =>
        have hb := @syncAttempt_fetch_none env url d s
          { id := aid, updated := t0, checksum := ac } hcur hg hscv
        rw [hb] at herr
        have hs : ({ fs := s.fs, trace := s.trace ++ [Ev.fetchManifest (url ++ "/checksum.json")] } : St) = s' :=
          congrArg Prod.snd herr
        intro p hp
        rw [← hs]
      | some sc =>
        have hne : (ac.id == sc.id) = false := beq_eq_false_iff_ne.mpr (hdiff sc hscv)
        have hb := @syncAttempt_to_update env url d s
          { id := aid, updated := t0, checksum := ac } sc hcur hg hscv hne
        rw [hb] at herr
        intro p hp
        exact updateFromManifest_preserve env url sc
          { id := aid, updated := t0, checksum := ac } _ e s' herr hnorn p hp
  exact ⟨sync_of_attempt_err hn herr, hpres, hpres "version.json" (by decide)⟩

/-- Witness for C2 amended: the concrete fetch-failure run preserves the
store. -/
theorem sync_preserves_state_before_commit_witness :
    sync okEnv "https://srv" 3600 s0 = (Except.ok false, stW) ∧
    (∀ p, stgPath p = false → lookupFile stW.fs p = lookupFile s0.fs p) ∧
    lookupFile stW.fs "version.json" = lookupFile s0.fs "version.json" :=
  @sync_preserves_state_before_commit okEnv "https://srv" 3600 s0 "v1" 0 ac1
    "Unable to get checksum from server" stW rfl rfl rfl
    (fun sc h => Option.noConfusion h) (by rfl)
    (by intro x y h; simp [stW] at h)

/-- C6: when the fetched manifest's id equals the active one, sync refreshes
the persisted pointer's timestamp, performs no copy/download (the trace
grows only by the manifest fetch) and returns `false`; and a second gated
call from the refreshed store does exactly the same — both calls return
`false` and the second performs no copy/download. -/
theorem sync_same_version_noop {env : Env} {url : String} {d : Nat} {s : St}
    {aid : String} {t0 : Nat} {ac sc : Checksum}
    (hn : env.isNative = true)
    (h1 : lookupFile s.fs "version.json" = some (FileData.verFile aid t0))
    (h2 : lookupFile s.fs ("releases/" ++ aid ++ "/checksum.json") =
      some (FileData.checksumFile ac))
    (hg : ¬(env.now < t0 + d))
    (hsc : env.serverChecksum = some sc)
    (hid : ac.id = sc.id)
    (hw : env.writeFail "version.json" = false) :
    sync env url d s = (Except.ok false,
      { fs := putFile s.fs "version.json" (FileData.verFile sc.id env.now),
        trace := s.trace ++ [Ev.fetchManifest (url ++ "/checksum.json")] }) ∧
    (∀ t2 : Nat, ¬(t2 < env.now + d) → aid = ac.id →
      sync { env with now := t2 } url d
        { fs := putFile s.fs "version.json" (FileData.verFile sc.id env.now), trace := [] } =
      (Except.ok false,
        { fs := putFile (putFile s.fs "version.json" (FileData.verFile sc.id env.now))
            "version.json" (FileData.verFile sc.id t2),
          trace := [Ev.fetchManifest (url ++ "/checksum.json")] })) := by
  have hcur := getCurrentRelease_found h1 h2
  constructor
  · exact sync_of_attempt_err hn
      (syncAttempt_same_version hcur hg hsc (beq_iff_eq.mpr hid) hw)
  · intro t2 ht2 haid
    have haidsc : aid = sc.id := haid.trans hid
    have h1' : lookupFile (putFile s.fs "version.json" (FileData.verFile sc.id env.now))
        "version.json" = some (FileData.verFile sc.id env.now) :=
      lookupFile_putFile_self _ _ _
    have h2' : lookupFile (putFile s.fs "version.json" (FileData.verFile sc.id env.now))
        ("releases/" ++ sc.id ++ "/checksum.json") = some (FileData.checksumFile ac) := by
      rw [lookupFile_putFile_ne _ _ _ _ (releases_path_ne_version sc.id "/checksum.json")]
      rw [← haidsc]
      exact h2
    have hcur2 := @getCurrentRelease_found
      { fs := putFile s.fs "version.json" (FileData.verFile sc.id env.now), trace := [] }
      sc.id env.now ac h1' h2'
    exact sync_of_attempt_err hn
      (syncAttempt_same_version hcur2 ht2 hsc (beq_iff_eq.mpr hid) hw)

/-- Witness for C6: two gated calls against an unchanged remote manifest on
the concrete store; both return `false` and each trace holds only the
manifest fetch. -/
theorem sync_same_version_noop_witness :
    sync envC6 "https://srv" 3600 s0 = (Except.ok false,
      { fs := putFile s0.fs "version.json" (FileData.verFile "v1" 100000),
        trace := [Ev.fetchManifest "https://srv/checksum.json"] }) ∧
    sync { envC6 with now := 200000 } "https://srv" 3600
      { fs := putFile s0.fs "version.json" (FileData.verFile "v1" 100000), trace := [] } =
    (Except.ok false,
      { fs := putFile (putFile s0.fs "version.json" (FileData.verFile "v1" 100000))
          "version.json" (FileData.verFile "v1" 200000),
        trace := [Ev.fetchManifest "https://srv/checksum.json"] }) := by
  have h := @sync_same_version_noop envC6 "https://srv" 3600 s0 "v1" 0 ac1 ac1
    rfl rfl rfl (by decide) rfl rfl rfl
  exact ⟨h.1, h.2 200000 (by decide) rfl⟩

/-- C9 amended: manifest ids are not validated before being used as
directory names: for every id `i` distinct from the active release (and
whose target directory is free), the sync against the concrete store uses
`i` verbatim to form the rename target `releases/i` — the commit rename with
that target is in the trace, traversal sequences included. -/
theorem sync_uses_id_in_rename_unvalidated (i : String)
    (hne : ¬("v1" = i))
    (hex : fsExists (c9Staged i).fs ("releases/" ++ i) = false) :
    Ev.renameOp "releases/next" ("releases/" ++ i)
      ∈ (sync (c9Env i) "https://srv" 3600 s0).2.trace := by
  have hcur : getCurrentRelease s0 =
      (Except.ok (some { id := "v1", updated := 0, checksum := ac1 }), s0) :=
    getCurrentRelease_found rfl rfl
  have hg : ¬((c9Env i).now <
      ({ id := "v1", updated := 0, checksum := ac1 } : Release).updated + 3600) :=
    (by decide : ¬((100000 : Nat) < 0 + 3600))
  have hid : (({ id := "v1", updated := 0, checksum := ac1 } : Release).checksum.id ==
      (c9Checksum i).id) = false := beq_eq_false_iff_ne.mpr hne
  have htu := @syncAttempt_to_update (c9Env i) "https://srv" 3600 s0
    { id := "v1", updated := 0, checksum := ac1 } (c9Checksum i) hcur hg rfl hid
  have hstag : updateFromManifest (c9Env i) "https://srv" (c9Checksum i)
      { id := "v1", updated := 0, checksum := ac1 }
      { s0 with trace := s0.trace ++ [Ev.fetchManifest ("https://srv" ++ "/checksum.json")] } =
      commitTail (c9Env i) (c9Checksum i) (c9Staged i) := rfl
  have hren : ∃ fsr, fsRename (c9Env i) "releases/next" ("releases/" ++ i) (c9Staged i) =
      (Except.ok (),
       { fs := fsr, trace := (c9Staged i).trace ++ [Ev.renameOp "releases/next" ("releases/" ++ i)] }) := by
    unfold fsRename
    rw [if_neg (ne_true_of_eq_false (rfl : (c9Env i).renameFail = false)), mBind_getFS]
    unfold renameCore
    rw [if_pos (show fsExists (c9Staged i).fs "releases/next" = true from rfl)]
    rw [if_neg (ne_true_of_eq_false hex)]
    exact ⟨_, rfl⟩
  obtain ⟨fsr, hren⟩ := hren
  have hmem : Ev.renameOp "releases/next" ("releases/" ++ i)
      ∈ (syncAttempt (c9Env i) "https://srv" 3600 s0).2.trace := by
    rw [htu, hstag]
    unfold commitTail
    simp only [show (c9Checksum i).id = i from rfl]
    rw [mBind_ok hren]
    exact (TP_mBind (TP_deleteOldReleases _ _) (fun _ =>
        TP_mBind (TP_activateRelease _ _) (fun _ => TP_mPure _))) _ _
      (List.mem_append_right _ (List.mem_singleton.mpr rfl))
  have hsnd : (sync (c9Env i) "https://srv" 3600 s0).2 =
      (syncAttempt (c9Env i) "https://srv" 3600 s0).2 := by
    unfold sync
    rw [if_pos (show (c9Env i).isNative = true from rfl)]
    unfold tryCatchM
    rcases hs : syncAttempt (c9Env i) "https://srv" 3600 s0 with ⟨r, s'⟩
    cases r <;> rfl
  rw [hsnd]
  exact hmem

/-- Witness for C9 amended at the traversal id `../evil2`. -/
theorem sync_uses_id_in_rename_unvalidated_witness :
    Ev.renameOp "releases/next" ("releases/" ++ "../evil2")
      ∈ (sync (c9Env "../evil2") "https://srv" 3600 s0).2.trace :=
  sync_uses_id_in_rename_unvalidated "../evil2" (by decide) (by decide)

-- --------------------------------------------------------------
-- Bootstrap run lemmas (for C5 and C10)
-- --------------------------------------------------------------

theorem emit_run (ev : Ev) (s : St) :
    emit ev s = (Except.ok (), { s with trace := s.trace ++ [ev] }) := rfl

theorem forEachM_cons {α : Type} (x : α) (xs : List α) (f : α → M Unit) :
    forEachM (x :: xs) f = mBind (f x) (fun _ => forEachM xs f) := rfl

theorem downloadFileFromAppBundle_fail {env : Env} {u p : String} {s : St}
    (h : env.bundleFileFail p = true) :
    downloadFileFromAppBundle env u p s =
      (Except.ok false, { s with trace := s.trace ++ [Ev.bundleFetch u p] }) := by
  unfold downloadFileFromAppBundle tryCatchM
  simp only [mBind_ok (emit_run (Ev.bundleFetch u p) s)]
  rw [if_pos h]
  rfl

theorem downloadFileFromAppBundle_ok {env : Env} {u p : String} {s : St}
    (h : env.bundleFileFail p = false) :
    downloadFileFromAppBundle env u p s =
      (Except.ok true,
       { fs := putFile s.fs p (FileData.bundled u), trace := s.trace ++ [Ev.bundleFetch u p] }) := by
  unfold downloadFileFromAppBundle tryCatchM
  simp only [mBind_ok (emit_run (Ev.bundleFetch u p) s)]
  rw [if_neg (ne_true_of_eq_false h)]
  rfl

theorem createDir_run (p : String) (s : St) :
    ∃ dd, createDir p s =
      (Except.ok (), { fs := { files := s.fs.files, dirs := dd }, trace := s.trace }) := by
  unfold createDir
  by_cases h0 : (p == "") = true
  · rw [if_pos h0]
    exact ⟨s.fs.dirs, rfl⟩
  · rw [if_neg h0]
    unfold tryCatchM fsMkdir
    rw [mBind_getFS]
    by_cases h1 : s.fs.dirs.contains p = true
    · rw [if_pos h1]
      exact ⟨s.fs.dirs, rfl⟩
    · rw [if_neg h1]
      exact ⟨p :: s.fs.dirs, rfl⟩

theorem scaffoldLoop_run (pref : String) (paths : List String) : ∀ s : St, ∃ dd,
    forEachM paths (fun path => createDir (pref ++ path)) s =
      (Except.ok (), { fs := { files := s.fs.files, dirs := dd }, trace := s.trace }) := by
  induction paths with
  | nil => exact fun s => ⟨s.fs.dirs, rfl⟩
  | cons x xs ih =>
    intro s
    obtain ⟨dd1, h1⟩ := createDir_run (pref ++ x) s
    obtain ⟨dd2, h2⟩ := ih { fs := { files := s.fs.files, dirs := dd1 }, trace := s.trace }
    refine ⟨dd2, ?_⟩
    rw [forEachM_cons, mBind_ok h1]
    exact h2

theorem bundleLoop_run (env : Env) (rid : String) (files : List ChecksumFile) : ∀ s : St,
    ∃ s₁, forEachM files (fun file =>
        mBind (downloadFileFromAppBundle env ("http://localhost/" ++ file.path)
          ("releases/" ++ rid ++ "/" ++ file.path)) (fun _ => mPure ())) s =
        (Except.ok (), s₁) ∧
      (∀ ev, ev ∈ s₁.trace → ev ∈ s.trace ∨ ∃ u p, ev = Ev.bundleFetch u p) ∧
      (∀ q, (∀ g ∈ files, ("releases/" ++ rid ++ "/" ++ g.path) = q →
          env.bundleFileFail q = true) → lookupFile s₁.fs q = lookupFile s.fs q) := by
  induction files with
  | nil => exact fun s => ⟨s, rfl, fun ev h => Or.inl h, fun q _ => rfl⟩
  | cons f fs ih =>
    intro s
    by_cases hf : env.bundleFileFail ("releases/" ++ rid ++ "/" ++ f.path) = true
    · obtain ⟨s₁, hrun, htr, hpres⟩ := ih { s with trace := s.trace ++
        [Ev.bundleFetch ("http://localhost/" ++ f.path) ("releases/" ++ rid ++ "/" ++ f.path)] }
      refine ⟨s₁, ?_, ?_, ?_⟩
      · rw [forEachM_cons,
          mBind_ok (show (mBind (downloadFileFromAppBundle env ("http://localhost/" ++ f.path)
              ("releases/" ++ rid ++ "/" ++ f.path)) (fun _ => mPure ())) s = (Except.ok (), _) from
            by rw [mBind_ok (downloadFileFromAppBundle_fail hf)]; rfl)]
        exact hrun
      · intro ev hev
        rcases htr ev hev with h | h
        · rcases List.mem_append.mp h with h1 | h1
          · exact Or.inl h1
          · exact Or.inr ⟨_, _, List.mem_singleton.mp h1⟩
        · exact Or.inr h
      · intro q hq
        exact hpres q (fun g hg => hq g (List.mem_cons_of_mem _ hg))
    · have hf' : env.bundleFileFail ("releases/" ++ rid ++ "/" ++ f.path) = false := by
        revert hf
        cases env.bundleFileFail ("releases/" ++ rid ++ "/" ++ f.path) <;> simp
      obtain ⟨s₁, hrun, htr, hpres⟩ := ih
        { fs := putFile s.fs ("releases/" ++ rid ++ "/" ++ f.path)
            (FileData.bundled ("http://localhost/" ++ f.path)),
          trace := s.trace ++
            [Ev.bundleFetch ("http://localhost/" ++ f.path) ("releases/" ++ rid ++ "/" ++ f.path)] }
      refine ⟨s₁, ?_, ?_, ?_⟩
      · rw [forEachM_cons,
          mBind_ok (show (mBind (downloadFileFromAppBundle env ("http://localhost/" ++ f.path)
              ("releases/" ++ rid ++ "/" ++ f.path)) (fun _ => mPure ())) s = (Except.ok (), _) from
            by rw [mBind_ok (downloadFileFromAppBundle_ok hf')]; rfl)]
        exact hrun
      · intro ev hev
        rcases htr ev hev with h | h
        · rcases List.mem_append.mp h with h1 | h1
          · exact Or.inl h1
          · exact Or.inr ⟨_, _, List.mem_singleton.mp h1⟩
        · exact Or.inr h
      · intro q hq
        have h2 := hpres q (fun g hg => hq g (List.mem_cons_of_mem _ hg))
        rw [h2]
        show lookupFile (putFile s.fs _ _) q = lookupFile s.fs q
        apply lookupFile_putFile_ne
        intro hqe
        have := hq f (List.mem_cons_self _ _) hqe.symm
        rw [← hqe] at hf'
        exact absurd this (ne_true_of_eq_false hf')

theorem buildReleaseFromBundle_run {env : Env} {bc : Checksum} (s : St)
    (hbc : env.bundleChecksum = some bc)
    (hw1 : env.writeFail ("releases/" ++ bc.id ++ "/checksum.json") = false)
    (hw2 : env.writeFail "version.json" = false) :
    ∃ s₁, buildReleaseFromBundle env s =
        (Except.ok { id := bc.id, updated := bc.timestamp, checksum := bc }, s₁) ∧
      lookupFile s₁.fs "version.json" = some (FileData.verFile bc.id bc.timestamp) ∧
      lookupFile s₁.fs ("releases/" ++ bc.id ++ "/checksum.json") =
        some (FileData.checksumFile bc) ∧
      (∀ ev, ev ∈ s₁.trace → ev ∈ s.trace ∨ ∃ u p, ev = Ev.bundleFetch u p) ∧
      (∀ q, (∀ g ∈ bc.files, ("releases/" ++ bc.id ++ "/" ++ g.path) = q →
          env.bundleFileFail q = true) →
        ¬(q = "releases/" ++ bc.id ++ "/checksum.json") → ¬(q = "version.json") →
        lookupFile s₁.fs q = lookupFile s.fs q) := by
  obtain ⟨dd0, hcd⟩ := createDir_run "releases" s
  obtain ⟨dd1, hsl⟩ := scaffoldLoop_run ("releases/" ++ bc.id ++ "/")
    (setDedup (bc.files.map (fun file => jsSubstringToLastSlash file.path)))
    { fs := { files := s.fs.files, dirs := dd0 }, trace := s.trace }
  obtain ⟨s₂, hbl, htr2, hpres2⟩ := bundleLoop_run env bc.id bc.files
    { fs := { files := s.fs.files, dirs := dd1 }, trace := s.trace }
  have hwr1 : fsWriteFile env ("releases/" ++ bc.id ++ "/checksum.json")
      (FileData.checksumFile bc) s₂ =
      (Except.ok (),
       { s₂ with
            fs := putFile s₂.fs ("releases/" ++ bc.id ++ "/checksum.json")
                    (FileData.checksumFile bc) }) := fsWriteFile_ok _ hw1
  have hwr2 : setCurrentRelease env bc.id bc.timestamp
      { s₂ with
           fs := putFile s₂.fs ("releases/" ++ bc.id ++ "/checksum.json")
                   (FileData.checksumFile bc) } =
      (Except.ok (),
       { fs := putFile (putFile s₂.fs ("releases/" ++ bc.id ++ "/checksum.json")
                   (FileData.checksumFile bc)) "version.json"
                 (FileData.verFile bc.id bc.timestamp),
         trace := s₂.trace }) := fsWriteFile_ok _ hw2
  refine ⟨{ fs := putFile (putFile s₂.fs ("releases/" ++ bc.id ++ "/checksum.json")
                    (FileData.checksumFile bc)) "version.json"
                  (FileData.verFile bc.id bc.timestamp),
            trace := s₂.trace }, ?_, ?_, ?_, ?_, ?_⟩
  · unfold buildReleaseFromBundle
    apply tryCatchM_ok
    rw [hbc]
    simp only [mBind_mPure]
    simp only [mBind_ok hcd]
    simp only [mBind_ok hsl]
    simp only [mBind_ok hbl]
    simp only [mBind_ok hwr1]
    simp only [mBind_ok hwr2]
    rfl
  · exact lookupFile_putFile_self _ _ _
  · rw [lookupFile_putFile_ne _ _ _ _ (releases_path_ne_version bc.id "/checksum.json")]
    exact lookupFile_putFile_self _ _ _
  · intro ev hev
    exact htr2 ev hev
  · intro q hq hne1 hne2
    rw [lookupFile_putFile_ne _ _ _ _ hne2, lookupFile_putFile_ne _ _ _ _ hne1]
    exact hpres2 q hq

/-- C5 amended: with no active pointer, sync bootstraps from the embedded
baseline (installing its checksum and persisting the pointer) and then
proceeds to the gate; when `checkDelay` has not yet elapsed since the
bundled manifest's timestamp the run stops without any remote manifest
fetch and returns `false`.  (The counterexample shows the complementary
case: with an elapsed gate, the very first invocation does fetch the remote
manifest.) -/
theorem sync_bootstrap_then_gate {env : Env} {url : String} {d : Nat} {s : St} {bc : Checksum}
    (hn : env.isNative = true)
    (hv : lookupFile s.fs "version.json" = none)
    (hbc : env.bundleChecksum = some bc)
    (hw1 : env.writeFail ("releases/" ++ bc.id ++ "/checksum.json") = false)
    (hw2 : env.writeFail "version.json" = false)
    (hg : env.now < bc.timestamp + d)
    (htr : s.trace = []) :
    ∃ s', sync env url d s = (Except.ok false, s') ∧
      lookupFile s'.fs "version.json" = some (FileData.verFile bc.id bc.timestamp) ∧
      ∀ u, Ev.fetchManifest u ∉ s'.trace := by
  obtain ⟨s₁, hrun, hver, hchk, htrace, hpres⟩ := buildReleaseFromBundle_run s hbc hw1 hw2
  have hcur := getCurrentRelease_missing hv
  have hatt : syncAttempt env url d s = (Except.error "update check not due yet", s₁) := by
    unfold syncAttempt
    simp only [mBind_ok hcur]
    simp only [mBind_ok hrun]
    rw [if_pos hg]
    rfl
  refine ⟨s₁, sync_of_attempt_err hn hatt, hver, ?_⟩
  intro u hu
  rcases htrace _ hu with h | ⟨u', p', he⟩
  · rw [htr] at h
    cases h
  · exact Ev.noConfusion he

/-- Witness for C5 amended: fresh install, old baseline, 1-hour delay not
yet elapsed — no remote fetch. -/
theorem sync_bootstrap_then_gate_witness :
    ∃ s', sync { okEnv with bundleChecksum := some bc0 } "https://srv" 3600000 sEmpty =
        (Except.ok false, s') ∧
      lookupFile s'.fs "version.json" = some (FileData.verFile "v0" 0) ∧
      ∀ u, Ev.fetchManifest u ∉ s'.trace :=
  @sync_bootstrap_then_gate { okEnv with bundleChecksum := some bc0 } "https://srv" 3600000
    sEmpty bc0 rfl rfl rfl rfl rfl (by decide) rfl

/-- C10: the failure of one bundled-file copy does not fail the batch:
`downloadFileFromAppBundle` resolves to `false` instead of rejecting, the
`Promise.all` barrier succeeds, and `buildReleaseFromBundle` still writes
the release checksum, persists the pointer and returns the release as
installed, while the failed file was never written. -/
theorem buildReleaseFromBundle_tolerates_file_failure {env : Env} {s : St} {bc : Checksum}
    {f : ChecksumFile}
    (hbc : env.bundleChecksum = some bc)
    (_hf : f ∈ bc.files)
    (hfail : env.bundleFileFail ("releases/" ++ bc.id ++ "/" ++ f.path) = true)
    (hw1 : env.writeFail ("releases/" ++ bc.id ++ "/checksum.json") = false)
    (hw2 : env.writeFail "version.json" = false)
    (h0 : lookupFile s.fs ("releases/" ++ bc.id ++ "/" ++ f.path) = none)
    (hne1 : ¬(("releases/" ++ bc.id ++ "/" ++ f.path) = "releases/" ++ bc.id ++ "/checksum.json"))
    (hne2 : ¬(("releases/" ++ bc.id ++ "/" ++ f.path) = "version.json")) :
    (∀ sx : St, ∃ sx', downloadFileFromAppBundle env ("http://localhost/" ++ f.path)
        ("releases/" ++ bc.id ++ "/" ++ f.path) sx = (Except.ok false, sx')) ∧
    ∃ s₁, buildReleaseFromBundle env s =
        (Except.ok { id := bc.id, updated := bc.timestamp, checksum := bc }, s₁) ∧
      lookupFile s₁.fs "version.json" = some (FileData.verFile bc.id bc.timestamp) ∧
      lookupFile s₁.fs ("releases/" ++ bc.id ++ "/checksum.json") =
        some (FileData.checksumFile bc) ∧
      lookupFile s₁.fs ("releases/" ++ bc.id ++ "/" ++ f.path) = none := by
  constructor
  · intro sx
    exact ⟨_, downloadFileFromAppBundle_fail hfail⟩
  · obtain ⟨s₁, hrun, hver, hchk, _, hpres⟩ := buildReleaseFromBundle_run s hbc hw1 hw2
    refine ⟨s₁, hrun, hver, hchk, ?_⟩
    rw [hpres _ (fun g hg he => hfail) hne1 hne2, h0]

/-- Witness for C10: the concrete bootstrap where copying `sub/b.js` fails
still installs release `v0`. -/
theorem buildReleaseFromBundle_tolerates_file_failure_witness :
    (∀ sx : St, ∃ sx', downloadFileFromAppBundle envC10 ("http://localhost/" ++ "sub/b.js")
        ("releases/" ++ "v0" ++ "/" ++ "sub/b.js") sx = (Except.ok false, sx')) ∧
    ∃ s₁, buildReleaseFromBundle envC10 sEmpty =
        (Except.ok { id := "v0", updated := 7, checksum := bc2 }, s₁) ∧
      lookupFile s₁.fs "version.json" = some (FileData.verFile "v0" 7) ∧
      lookupFile s₁.fs ("releases/" ++ "v0" ++ "/checksum.json") =
        some (FileData.checksumFile bc2) ∧
      lookupFile s₁.fs ("releases/" ++ "v0" ++ "/" ++ "sub/b.js") = none :=
  @buildReleaseFromBundle_tolerates_file_failure envC10 sEmpty bc2
    { path := "sub/b.js", hash := "h2" } rfl (by decide) (by decide) rfl rfl rfl
    (by decide) (by decide)

end AppUpdater
